import Mathlib

/-!
Shallow embedding of the client-side state synchronization and ordering
engine of the trello-style task board (source: src/src/context/BoardContext.tsx
and the drag handler in src/src/components/BoardList.tsx, file Board.tsx part).

Modelling conventions:
* The React state pieces (boards, currentBoard, columns, cards, tags) form one
  record `BoardState`; `setX(f)` becomes a functional update of that record.
* Each mutating operation awaits exactly one remote (supabase) mutating call.
  The call's success/failure is an input `ok : Bool` of the step function, and
  the row returned by a successful insert (server-generated id/timestamps) is a
  parameter of the operation.  The select-max-position queries issued by
  createColumn/createCard are evaluated against the local mirror (the single
  sequential client keeps the remote rows of a scope equal to the local ones).
* The order of effects is recorded as a trace of `Event`s: one event per
  remote call issued, and `Event.storeApply` at the point the local React
  state is updated.
* A JS array of tags can hold `undefined` (the source pushes the unchecked
  result of `tags.find`), so the `tags` field of a card is a list of
  `Option Tag`; entries loaded normally are `some`.
-/

namespace TaskBoard

/-- Tag row, from src/src/types/index.ts. -/
structure Tag where
  id : String
  name : String
  color : String
  created_at : String
deriving Repr, DecidableEq

/-- Card row, from src/src/types/index.ts; `tags` entries are `Option` because
the source can push an undefined lookup result into the array. -/
structure Card where
  id : String
  column_id : String
  title : String
  description : Option String
  position : Int
  created_at : String
  updated_at : String
  tags : List (Option Tag)
deriving Repr, DecidableEq

/-- Column row, from src/src/types/index.ts. -/
structure Column where
  id : String
  board_id : String
  title : String
  position : Int
  created_at : String
  updated_at : String
deriving Repr, DecidableEq

/-- Board row, from src/src/types/index.ts. -/
structure Board where
  id : String
  title : String
  created_at : String
  updated_at : String
deriving Repr, DecidableEq

/-- The React state held by BoardProvider (src/src/context/BoardContext.tsx,
useState hooks at the top of the provider). -/
structure BoardState where
  boards : List Board
  currentBoard : Option Board
  columns : List Column
  cards : List Card
  tags : List Tag
deriving Repr, DecidableEq

/-- A partial card update, mirroring the TypeScript type
Partial Card with a mandatory id (argument of updateCard). -/
structure CardPatch where
  id : String
  column_id : Option String := none
  title : Option String := none
  description : Option (Option String) := none
  position : Option Int := none
  created_at : Option String := none
  updated_at : Option String := none
deriving Repr, DecidableEq

/-- Spreading a patch over a card: JS object spread of the present fields
(the id field of the patch equals the card's id at every use site because the
update targets cards whose id matches the patch id). -/
def applyPatch (c : Card) (p : CardPatch) : Card :=
  { c with
    column_id := p.column_id.getD c.column_id
    title := p.title.getD c.title
    description := p.description.getD c.description
    position := p.position.getD c.position
    created_at := p.created_at.getD c.created_at
    updated_at := p.updated_at.getD c.updated_at }

/-- One remote (supabase) call, as issued by the provider functions. -/
inductive GatewayCall where
  | insertBoard (title : String)
  | selectMaxColumnPos (boardId : String)
  | insertColumn (title boardId : String) (position : Int)
  | selectMaxCardPos (columnId : String)
  | insertCard (title columnId : String) (position : Int)
  | updateCardPos (cardId columnId : String) (position : Int)
  | updateCardFields (patch : CardPatch)
  | deleteCardRow (cardId : String)
  | deleteColumnRow (columnId : String)
  | deleteBoardRow (boardId : String)
  | insertCardTag (cardId tagId : String)
  | deleteCardTag (cardId tagId : String)
deriving Repr, DecidableEq

/-- Trace events: a remote call being issued, or the local state being set. -/
inductive Event where
  | gateway (c : GatewayCall)
  | storeApply
deriving Repr, DecidableEq

/-- One user-facing mutating operation of the provider.  Server-generated
fields of a successful insert (id, timestamps — echoed back as the inserted
row) are carried as parameters. -/
inductive Op where
  | createBoard (title : String) (ret : Board)
  | createColumn (title boardId retId retCa retUa : String)
  | createCard (title columnId retId retCa retUa : String)
  | updateCardPosition (cardId columnId : String) (position : Int)
  | updateCard (patch : CardPatch)
  | deleteCard (cardId : String)
  | deleteColumn (columnId : String)
  | deleteBoard (boardId : String)
  | addTagToCard (cardId tagId : String)
  | removeTagFromCard (cardId tagId : String)
deriving Repr, DecidableEq

/-- Greatest element of a list of integers, None on the empty list. -/
def listMax : List Int → Option Int
  | [] => none
  | a :: l =>
    match listMax l with
    | none => some a
    | some b => some (max a b)

/-- Stable descending insertion used to model the SQL
order-by-position-descending of the select queries. -/
def insertDesc (a : Int) : List Int → List Int
  | [] => [a]
  | x :: xs => if x ≤ a then a :: x :: xs else x :: insertDesc a xs

/-- Sort a list of positions descending (model of order desc). -/
def sortDescInt (l : List Int) : List Int := l.foldr insertDesc []

/-- First row of the order-by-position-descending limit-1 query: the top
position of the scope, if the scope is non-empty. -/
def topPositionDesc (ps : List Int) : Option Int := (sortDescInt ps).head?

/-- Position computed for a newly created column/card
(src/src/context/BoardContext.tsx lines 169-171 and 202-204):
one past the first row of the descending query, or 0 if no row. -/
def nextPosition (ps : List Int) : Int :=
  match topPositionDesc ps with
  | some p => p + 1
  | none => 0

/-- Positions of the cards of one column, in store order. -/
def columnPositions (s : BoardState) (columnId : String) : List Int :=
  (s.cards.filter (fun c => c.column_id == columnId)).map (fun c => c.position)

/-- Positions of the columns of one board, in store order. -/
def boardPositions (s : BoardState) (boardId : String) : List Int :=
  (s.columns.filter (fun c => c.board_id == boardId)).map (fun c => c.position)

/-- Local-state update shared by every drag outcome and by the
updateCardPosition operation (src/src/context/BoardContext.tsx lines 226-247):
issue the update call; on success map over the cards, replacing column_id and
position of the card with the given id. -/
def updateCardPositionRun (s : BoardState) (cardId columnId : String)
    (position : Int) (ok : Bool) : BoardState × List Event :=
  if ok then
    ({ s with cards := s.cards.map (fun c =>
        if c.id == cardId then { c with column_id := columnId, position := position } else c) },
     [Event.gateway (GatewayCall.updateCardPos cardId columnId position), Event.storeApply])
  else
    (s, [Event.gateway (GatewayCall.updateCardPos cardId columnId position)])

/-- Step function of the Synchronization Engine: one provider operation, its
remote outcome, the resulting state and the trace of effects, translated
branch by branch from src/src/context/BoardContext.tsx.  Every catch branch
of the source only logs/toasts, so a failed call leaves the state as it was. -/
def runOp (s : BoardState) (op : Op) (ok : Bool) : BoardState × List Event :=
  match op with
  | Op.createBoard title ret =>
    if ok then
      ({ s with boards := ret :: s.boards },
       [Event.gateway (GatewayCall.insertBoard title), Event.storeApply])
    else
      (s, [Event.gateway (GatewayCall.insertBoard title)])
  | Op.createColumn title boardId retId retCa retUa =>
    let position := nextPosition (boardPositions s boardId)
    let calls := [Event.gateway (GatewayCall.selectMaxColumnPos boardId),
                  Event.gateway (GatewayCall.insertColumn title boardId position)]
    if ok then
      ({ s with columns := s.columns ++ [⟨retId, boardId, title, position, retCa, retUa⟩] },
       calls ++ [Event.storeApply])
    else
      (s, calls)
  | Op.createCard title columnId retId retCa retUa =>
    let position := nextPosition (columnPositions s columnId)
    let calls := [Event.gateway (GatewayCall.selectMaxCardPos columnId),
                  Event.gateway (GatewayCall.insertCard title columnId position)]
    if ok then
      ({ s with cards := s.cards ++ [⟨retId, columnId, title, none, position, retCa, retUa, []⟩] },
       calls ++ [Event.storeApply])
    else
      (s, calls)
  | Op.updateCardPosition cardId columnId position =>
    updateCardPositionRun s cardId columnId position ok
  | Op.updateCard patch =>
    if ok then
      ({ s with cards := s.cards.map (fun c =>
          if c.id == patch.id then applyPatch c patch else c) },
       [Event.gateway (GatewayCall.updateCardFields patch), Event.storeApply])
    else
      (s, [Event.gateway (GatewayCall.updateCardFields patch)])
  | Op.deleteCard cardId =>
    if ok then
      ({ s with cards := s.cards.filter (fun c => c.id != cardId) },
       [Event.gateway (GatewayCall.deleteCardRow cardId), Event.storeApply])
    else
      (s, [Event.gateway (GatewayCall.deleteCardRow cardId)])
  | Op.deleteColumn columnId =>
    if ok then
      ({ s with columns := s.columns.filter (fun c => c.id != columnId),
                cards := s.cards.filter (fun c => c.column_id != columnId) },
       [Event.gateway (GatewayCall.deleteColumnRow columnId), Event.storeApply])
    else
      (s, [Event.gateway (GatewayCall.deleteColumnRow columnId)])
  | Op.deleteBoard boardId =>
    if ok then
      let s' := { s with boards := s.boards.filter (fun b => b.id != boardId) }
      let s'' :=
        if (match s.currentBoard with | some b => b.id == boardId | none => false) then
          { s' with currentBoard := none, columns := [], cards := [] }
        else s'
      (s'', [Event.gateway (GatewayCall.deleteBoardRow boardId), Event.storeApply])
    else
      (s, [Event.gateway (GatewayCall.deleteBoardRow boardId)])
  | Op.addTagToCard cardId tagId =>
    if ok then
      let tag := s.tags.find? (fun t => t.id == tagId)
      ({ s with cards := s.cards.map (fun c =>
          if c.id == cardId then { c with tags := c.tags ++ [tag] } else c) },
       [Event.gateway (GatewayCall.insertCardTag cardId tagId), Event.storeApply])
    else
      (s, [Event.gateway (GatewayCall.insertCardTag cardId tagId)])
  | Op.removeTagFromCard cardId tagId =>
    if ok then
      ({ s with cards := s.cards.map (fun c =>
          if c.id == cardId then
            { c with tags := c.tags.filter (fun t =>
                match t with
                | some tg => tg.id != tagId
                | none => true) }
          else c) },
       [Event.gateway (GatewayCall.deleteCardTag cardId tagId), Event.storeApply])
    else
      (s, [Event.gateway (GatewayCall.deleteCardTag cardId tagId)])

/-- Element at an index, None when out of range (JS indexing). -/
def nth : List α → Nat → Option α
  | [], _ => none
  | x :: _, 0 => some x
  | _ :: l, n + 1 => nth l n

/-- Remove the element at an index (JS splice with delete count 1);
out-of-range indices remove nothing. -/
def removeAt : Nat → List α → List α
  | _, [] => []
  | 0, _ :: l => l
  | n + 1, x :: l => x :: removeAt n l

/-- Insert an element at an index (JS splice with delete count 0);
an index past the end appends. -/
def insertAt : Nat → α → List α → List α
  | 0, a, l => a :: l
  | _ + 1, a, [] => [a]
  | n + 1, a, x :: l => x :: insertAt n a l

/-- JS Array.findIndex, with the not-found -1 modeled as None. -/
def findIndex (p : α → Bool) : List α → Option Nat
  | [] => none
  | x :: l => if p x then some 0 else (findIndex p l).map (fun n => n + 1)

/-- dnd-kit arrayMove: remove the element at index i, re-insert it at index j.
The drag handler only ever calls it with i in range. -/
def arrayMove (l : List α) (i j : Nat) : List α :=
  match nth l i with
  | some x => insertAt j x (removeAt i l)
  | none => l

/-- Stable ascending insertion by card position. -/
def insertAsc (c : Card) : List Card → List Card
  | [] => [c]
  | x :: xs => if c.position ≤ x.position then c :: x :: xs else x :: insertAsc c xs

/-- Stable sort of cards by ascending position, the JS
sort by position difference in the drag handler. -/
def sortByPos (l : List Card) : List Card := l.foldr insertAsc []

/-- Drag-session resolution, translated from handleDragEnd in the Board
component (src/src/components/BoardList.tsx part two, lines 143-206).
Arguments: the dragged card id, the drop target id (None when dropped on
nothing), and the outcome of the single update call the handler may issue.
Branches, in source order: no target, or unknown active card: nothing
happens; target is a column: move there with position one past the column's
maximum (0 if empty); target is a card of the same column: arrayMove the
sorted siblings and update only the dragged card to its new index; target is
a card of another column: update the dragged card to the target's column and
the target's own position. -/
def handleDragEnd (s : BoardState) (activeCardId : String) (over : Option String)
    (ok : Bool) : BoardState × List Event :=
  match over with
  | none => (s, [])
  | some overId =>
    match s.cards.find? (fun c => c.id == activeCardId) with
    | none => (s, [])
    | some activeCard =>
      match s.columns.find? (fun col => col.id == overId) with
      | some overColumn =>
        let columnCards := s.cards.filter (fun c => c.column_id == overColumn.id)
        let highestPosition : Int :=
          match listMax (columnCards.map (fun c => c.position)) with
          | some m => m + 1
          | none => 0
        updateCardPositionRun s activeCardId overColumn.id highestPosition ok
      | none =>
        match s.cards.find? (fun c => c.id == overId) with
        | none => (s, [])
        | some overCard =>
          if activeCard.column_id == overCard.column_id then
            let columnCards := sortByPos (s.cards.filter (fun c => c.column_id == activeCard.column_id))
            match findIndex (fun c => c.id == activeCardId) columnCards,
                  findIndex (fun c => c.id == overId) columnCards with
            | some activeIndex, some overIndex =>
              let newOrder := arrayMove columnCards activeIndex overIndex
              match findIndex (fun c => c.id == activeCardId) newOrder with
              | some i => updateCardPositionRun s activeCardId activeCard.column_id (Int.ofNat i) ok
              | none => (s, [])
            | _, _ => (s, [])
          else
            updateCardPositionRun s activeCardId overCard.column_id overCard.position ok

/-- Whether an event is a remote call. -/
def isGatewayEvent : Event → Bool
  | Event.gateway _ => true
  | Event.storeApply => false

/-- Whether a trace contains a local state application that happens strictly
before some remote call — the signature of an optimistic apply. -/
def storeApplyBeforeGateway : List Event → Bool
  | [] => false
  | Event.storeApply :: rest => rest.any isGatewayEvent || storeApplyBeforeGateway rest
  | Event.gateway _ :: rest => storeApplyBeforeGateway rest

/-- How many tag entries of a card carry a given tag id (undefined entries do
not count). -/
def tagIdCount (c : Card) (tagId : String) : Nat :=
  (c.tags.filterMap id).countP (fun t => t.id == tagId)

/-- A card's tag entries hold pairwise distinct tag ids. -/
def cardTagsNodup (c : Card) : Prop :=
  ((c.tags.filterMap id).map Tag.id).Nodup

/-- Every card of the store satisfies the distinct-tag-ids invariant. -/
def allCardTagsNodup (s : BoardState) : Prop :=
  ∀ c ∈ s.cards, cardTagsNodup c

/-- Some card with the given id carries at least two entries of the tag id. -/
def hasDuplicateTag (s : BoardState) (cardId tagId : String) : Prop :=
  ∃ c ∈ s.cards, c.id = cardId ∧ 2 ≤ tagIdCount c tagId

/-- Some card with the given id carries an undefined (absent) tag entry. -/
def hasUndefinedTagEntry (s : BoardState) (cardId : String) : Prop :=
  ∃ c ∈ s.cards, c.id = cardId ∧ none ∈ c.tags

/-- m is the greatest element of l and is attained. -/
def isMaxOf (m : Int) (l : List Int) : Prop :=
  m ∈ l ∧ ∀ x ∈ l, x ≤ m

/-- Every card of the store with the moved id now lives in the destination
column, and no card of the source column carries the moved id. -/
def cardMovedOut (s : BoardState) (activeId source dest : String) : Prop :=
  ∀ c ∈ s.cards, (c.id = activeId → c.column_id = dest) ∧ (c.column_id = source → c.id ≠ activeId)

/-- No card of the store belongs to the given column. -/
def cascadeColumnDeleted (s : BoardState) (columnId : String) : Prop :=
  ∀ c ∈ s.cards, c.column_id ≠ columnId

/-- The observable board view is cleared. -/
def boardViewCleared (s : BoardState) : Prop :=
  s.currentBoard = none ∧ s.columns = [] ∧ s.cards = []

/-- The integers 0, 1, ..., n-1. -/
def rangeInts (n : Nat) : List Int := (List.range n).map (fun k => (k : Int))

/-- Run a sequence of successful createCard operations on one column; each
list entry supplies the title and the server-generated id/timestamps. -/
def createCards (s : BoardState) (columnId : String) :
    List (String × String × String × String) → BoardState
  | [] => s
  | (t, rid, ca, ua) :: rest =>
    createCards ((runOp s (Op.createCard t columnId rid ca ua) true).1) columnId rest

/-- Run a sequence of successful createColumn operations on one board. -/
def createColumns (s : BoardState) (boardId : String) :
    List (String × String × String × String) → BoardState
  | [] => s
  | (t, rid, ca, ua) :: rest =>
    createColumns ((runOp s (Op.createColumn t boardId rid ca ua) true).1) boardId rest

/-! Concrete states used by counterexamples, code evaluations and witnesses. -/

/-- Card A at position 0 of column col. -/
def exCardA : Card := ⟨"A", "col", "A", none, 0, "", "", []⟩

/-- Card B at position 1 of column col. -/
def exCardB : Card := ⟨"B", "col", "B", none, 1, "", "", []⟩

/-- Card C at position 2 of column col. -/
def exCardC : Card := ⟨"C", "col", "C", none, 2, "", "", []⟩

/-- The column holding cards A, B, C. -/
def exCol : Column := ⟨"col", "b1", "To Do", 0, "", ""⟩

/-- A board with one column holding cards A at 0, B at 1, C at 2. -/
def exState1 : BoardState := ⟨[], none, [exCol], [exCardA, exCardB, exCardC], []⟩

/-- Card A2 at position 0 of column col1. -/
def exCardA2 : Card := ⟨"A", "col1", "A", none, 0, "", "", []⟩

/-- Card B2 at position 0 of column col2. -/
def exCardB2 : Card := ⟨"B", "col2", "B", none, 0, "", "", []⟩

/-- Column col1 of board b1. -/
def exCol1 : Column := ⟨"col1", "b1", "To Do", 0, "", ""⟩

/-- Column col2 of board b1. -/
def exCol2 : Column := ⟨"col2", "b1", "Done", 1, "", ""⟩

/-- Two columns holding one card each, both cards at position 0. -/
def exState2 : BoardState := ⟨[], none, [exCol1, exCol2], [exCardA2, exCardB2], []⟩

/-- The empty store. -/
def exState0 : BoardState := ⟨[], none, [], [], []⟩

/-- A board entity. -/
def exBoard : Board := ⟨"b1", "Sprint 1", "", ""⟩

/-- The tag urgent. -/
def exTag1 : Tag := ⟨"t1", "urgent", "red", ""⟩

/-- Card X already carrying the tag urgent. -/
def exCardX : Card := ⟨"X", "col", "X", none, 0, "", "", [some exTag1]⟩

/-- A store whose card X already carries tag t1, with t1 in the global tag
collection. -/
def exState3 : BoardState := ⟨[], none, [exCol], [exCardX], [exTag1]⟩

/-- A store whose current board is exBoard, with a column and cards. -/
def exState4 : BoardState := ⟨[exBoard], some exBoard, [exCol], [exCardA, exCardB], []⟩

/-- Card Y without tags. -/
def exCardY : Card := ⟨"Y", "col", "Y", none, 0, "", "", []⟩

/-- A store holding card Y and an empty global tag collection. -/
def exState5 : BoardState := ⟨[], none, [exCol], [exCardY], []⟩

/-! Helper lemmas about the list functions of the embedding. -/

theorem listMax_eq_none {l : List Int} : listMax l = none ↔ l = [] := by
  cases l with
  | nil => simp [listMax]
  | cons a t =>
    simp only [listMax]
    cases listMax t <;> simp

theorem listMax_mem {l : List Int} {m : Int} (h : listMax l = some m) : m ∈ l := by
  induction l generalizing m with
  | nil => simp [listMax] at h
  | cons a t ih =>
    rw [listMax] at h
    cases ht : listMax t with
    | none =>
      rw [ht] at h
      injection h with h
      exact h ▸ List.mem_cons_self a t
    | some b =>
      rw [ht] at h
      injection h with h
      rcases max_choice a b with hc | hc
      · rw [← h, hc]
        exact List.mem_cons_self a t
      · have hb : b = m := by rw [← hc, h]
        exact List.mem_cons_of_mem a (ih (by rw [ht, hb]))

theorem listMax_le {l : List Int} {m : Int} (h : listMax l = some m) :
    ∀ x ∈ l, x ≤ m := by
  induction l generalizing m with
  | nil => simp
  | cons a t ih =>
    rw [listMax] at h
    cases ht : listMax t with
    | none =>
      rw [ht] at h
      injection h with h
      have hnil : t = [] := listMax_eq_none.1 ht
      subst hnil
      simp [← h]
    | some b =>
      rw [ht] at h
      injection h with h
      intro x hx
      rcases List.mem_cons.1 hx with rfl | hxt
      · calc x ≤ max x b := le_max_left x b
          _ = m := h
      · calc x ≤ b := ih ht x hxt
          _ ≤ max a b := le_max_right a b
          _ = m := h

theorem listMax_concat (l : List Int) (a : Int) :
    listMax (l ++ [a])
      = some (match listMax l with | none => a | some m => max m a) := by
  induction l with
  | nil => simp [listMax]
  | cons x t ih =>
    rw [List.cons_append, listMax, ih, listMax]
    cases ht : listMax t with
    | none =>
      have hnil : t = [] := listMax_eq_none.1 ht
      subst hnil
      simp
    | some b => simp [max_assoc]

theorem head?_insertDesc (a : Int) (m : List Int) :
    (insertDesc a m).head?
      = some (match m.head? with | none => a | some x => max a x) := by
  cases m with
  | nil => simp [insertDesc]
  | cons x xs =>
    simp only [insertDesc, List.head?]
    by_cases h : x ≤ a
    · simp [h, max_eq_left h]
    · simp [h, max_eq_right (le_of_not_le h)]

theorem topPositionDesc_eq_listMax (l : List Int) : topPositionDesc l = listMax l := by
  induction l with
  | nil => rfl
  | cons a t ih =>
    have h1 : topPositionDesc (a :: t) = (insertDesc a (sortDescInt t)).head? := rfl
    rw [h1, head?_insertDesc]
    have h2 : (sortDescInt t).head? = listMax t := ih
    rw [h2, listMax]
    cases listMax t <;> rfl

theorem nextPosition_eq (ps : List Int) :
    nextPosition ps = match listMax ps with | some p => p + 1 | none => 0 := by
  rw [nextPosition, topPositionDesc_eq_listMax]

theorem listMax_rangeInts_succ (k : Nat) :
    listMax (rangeInts (k + 1)) = some (k : Int) := by
  induction k with
  | zero => rfl
  | succ j ih =>
    have h : rangeInts (j + 2) = rangeInts (j + 1) ++ [((j + 1 : Nat) : Int)] := by
      simp [rangeInts, List.range_succ]
    rw [h, listMax_concat, ih]
    have hle : ((j : Nat) : Int) ≤ ((j + 1 : Nat) : Int) := by push_cast; omega
    simp [max_eq_right hle]

theorem nextPosition_rangeInts (n : Nat) : nextPosition (rangeInts n) = (n : Int) := by
  rw [nextPosition_eq]
  cases n with
  | zero => simp [rangeInts, listMax]
  | succ k =>
    rw [listMax_rangeInts_succ]
    push_cast
    ring

theorem findIndex_lt_length {p : α → Bool} {l : List α} {i : Nat}
    (h : findIndex p l = some i) : i < l.length := by
  induction l generalizing i with
  | nil => simp [findIndex] at h
  | cons x t ih =>
    rw [findIndex] at h
    by_cases hx : p x = true
    · rw [if_pos hx] at h
      injection h with h
      simp [← h]
    · rw [if_neg hx] at h
      cases hf : findIndex p t with
      | none => rw [hf] at h; simp at h
      | some j =>
        rw [hf] at h
        simp at h
        have hlt := ih hf
        simp only [List.length_cons]
        omega

theorem findIndex_nth {p : α → Bool} {l : List α} {i : Nat}
    (h : findIndex p l = some i) : ∃ x, nth l i = some x ∧ p x = true := by
  induction l generalizing i with
  | nil => simp [findIndex] at h
  | cons a t ih =>
    rw [findIndex] at h
    by_cases ha : p a = true
    · rw [if_pos ha] at h
      injection h with h
      exact ⟨a, by rw [← h]; rfl, ha⟩
    · rw [if_neg ha] at h
      cases hf : findIndex p t with
      | none => rw [hf] at h; simp at h
      | some j =>
        rw [hf] at h
        simp at h
        obtain ⟨x, hx, hpx⟩ := ih hf
        exact ⟨x, by rw [← h]; exact hx, hpx⟩

theorem nth_lt_length {l : List α} {i : Nat} {x : α} (h : nth l i = some x) :
    i < l.length := by
  induction l generalizing i with
  | nil => simp [nth] at h
  | cons a t ih =>
    cases i with
    | zero => simp
    | succ j =>
      have hj := ih (by simpa [nth] using h)
      simpa using Nat.succ_lt_succ hj

theorem length_removeAt {l : List α} {i : Nat} (h : i < l.length) :
    (removeAt i l).length = l.length - 1 := by
  induction l generalizing i with
  | nil => simp at h
  | cons x t ih =>
    cases i with
    | zero => simp [removeAt]
    | succ j =>
      have hj : j < t.length := by simpa using h
      simp only [removeAt, List.length_cons, ih hj]
      omega

theorem findIndex_insertAt {p : α → Bool} {x : α} (hx : p x = true) :
    ∀ (j : Nat) (m : List α), (∀ y ∈ m, p y = false) → j ≤ m.length →
      findIndex p (insertAt j x m) = some j := by
  intro j
  induction j with
  | zero =>
    intro m _ _
    simp [insertAt, findIndex, hx]
  | succ n ih =>
    intro m hm hlen
    cases m with
    | nil => simp at hlen
    | cons z t =>
      have hz : p z = false := hm z (List.mem_cons_self z t)
      have ht : ∀ y ∈ t, p y = false := fun y hy => hm y (List.mem_cons_of_mem z hy)
      have hlen' : n ≤ t.length := by simpa using hlen
      simp [insertAt, findIndex, hz, ih t ht hlen']

theorem arrayMove_findIndex {p : α → Bool} {l : List α} {i j : Nat} {x : α}
    (hnth : nth l i = some x) (hx : p x = true)
    (hrest : ∀ y ∈ removeAt i l, p y = false) (hj : j < l.length) :
    findIndex p (arrayMove l i j) = some j := by
  have hi : i < l.length := nth_lt_length hnth
  have hlen : (removeAt i l).length = l.length - 1 := length_removeAt hi
  have hj' : j ≤ (removeAt i l).length := by rw [hlen]; omega
  rw [arrayMove, hnth]
  exact findIndex_insertAt hx j (removeAt i l) hrest hj'

theorem columnPositions_createCard (s : BoardState) (columnId t rid ca ua : String) :
    columnPositions (runOp s (Op.createCard t columnId rid ca ua) true).1 columnId
      = columnPositions s columnId ++ [nextPosition (columnPositions s columnId)] := by
  simp [runOp, columnPositions, List.filter_append]

theorem columnPositions_createCards (columnId : String) :
    ∀ (l : List (String × String × String × String)) (s : BoardState) (n : Nat),
      columnPositions s columnId = rangeInts n →
      columnPositions (createCards s columnId l) columnId = rangeInts (n + l.length) := by
  intro l
  induction l with
  | nil =>
    intro s n h
    simpa using h
  | cons e rest ih =>
    intro s n h
    obtain ⟨t, rid, ca, ua⟩ := e
    rw [createCards]
    have hstep : columnPositions (runOp s (Op.createCard t columnId rid ca ua) true).1 columnId
        = rangeInts (n + 1) := by
      rw [columnPositions_createCard, h, nextPosition_rangeInts]
      simp [rangeInts, List.range_succ]
    rw [ih _ _ hstep]
    congr 1
    simp only [List.length_cons]
    omega

theorem boardPositions_createColumn (s : BoardState) (boardId t rid ca ua : String) :
    boardPositions (runOp s (Op.createColumn t boardId rid ca ua) true).1 boardId
      = boardPositions s boardId ++ [nextPosition (boardPositions s boardId)] := by
  simp [runOp, boardPositions, List.filter_append]

theorem boardPositions_createColumns (boardId : String) :
    ∀ (l : List (String × String × String × String)) (s : BoardState) (n : Nat),
      boardPositions s boardId = rangeInts n →
      boardPositions (createColumns s boardId l) boardId = rangeInts (n + l.length) := by
  intro l
  induction l with
  | nil =>
    intro s n h
    simpa using h
  | cons e rest ih =>
    intro s n h
    obtain ⟨t, rid, ca, ua⟩ := e
    rw [createColumns]
    have hstep : boardPositions (runOp s (Op.createColumn t boardId rid ca ua) true).1 boardId
        = rangeInts (n + 1) := by
      rw [boardPositions_createColumn, h, nextPosition_rangeInts]
      simp [rangeInts, List.range_succ]
    rw [ih _ _ hstep]
    congr 1
    simp only [List.length_cons]
    omega

/-! Claim theorems. -/

/-- C4: for every mutating operation, if the remote call fails, the local
Entity Store state after the operation is exactly the state before it: every
catch branch of the source leaves the React state untouched (the local apply
only happens after a successful call), so a failed mutation is atomic. -/
theorem C4_failure_leaves_state_unchanged :
    (∀ (s : BoardState) (op : Op), (runOp s op false).1 = s)
    ∧ (∀ (s : BoardState) (activeId : String) (over : Option String),
        (handleDragEnd s activeId over false).1 = s) := by
  constructor
  · intro s op
    cases op <;> simp [runOp, updateCardPositionRun]
  · intro s activeId over
    unfold handleDragEnd
    rcases over with _ | overId
    · rfl
    · rcases hac : s.cards.find? (fun c => c.id == activeId) with _ | activeCard
      · simp [hac]
      · simp only [hac]
        rcases hcol : s.columns.find? (fun col => col.id == overId) with _ | overColumn
        · simp only [hcol]
          rcases hoc : s.cards.find? (fun c => c.id == overId) with _ | overCard
          · simp [hoc]
          · simp only [hoc]
            by_cases hsame : (activeCard.column_id == overCard.column_id) = true
            · rw [if_pos hsame]
              rcases h1 : findIndex (fun c => c.id == activeId)
                  (sortByPos (s.cards.filter (fun c => c.column_id == activeCard.column_id)))
                  with _ | ai
              · simp [h1]
              · rcases h2 : findIndex (fun c => c.id == overId)
                    (sortByPos (s.cards.filter (fun c => c.column_id == activeCard.column_id)))
                    with _ | oi
                · simp [h1, h2]
                · simp only [h1, h2]
                  rcases h3 : findIndex (fun c => c.id == activeId)
                      (arrayMove (sortByPos (s.cards.filter
                        (fun c => c.column_id == activeCard.column_id))) ai oi) with _ | i
                  · simp [h3]
                  · simp [h3, updateCardPositionRun]
            · rw [if_neg hsame]
              simp [updateCardPositionRun]
        · simp [hcol, updateCardPositionRun]

/-- C3 counterexample: createBoard on the empty store with a successful
remote call issues the insert call first and applies the local state only
afterwards; no store application precedes a gateway call in the trace, so
the operation is not an optimistic apply. -/
theorem C3_no_optimistic_apply_counterexample :
    (runOp exState0 (Op.createBoard "t" exBoard) true).2
      = [Event.gateway (GatewayCall.insertBoard "t"), Event.storeApply]
    ∧ storeApplyBeforeGateway (runOp exState0 (Op.createBoard "t" exBoard) true).2 = false :=
  ⟨rfl, rfl⟩

/-- C3 amended: every mutating operation issues its Remote Gateway call
before any Entity Store application; the store is applied exactly when the
call succeeds, never while the call is outstanding. -/
theorem C3_gateway_call_precedes_store_apply :
    ∀ (s : BoardState) (op : Op) (ok : Bool),
      storeApplyBeforeGateway (runOp s op ok).2 = false
      ∧ (Event.storeApply ∈ (runOp s op ok).2 ↔ ok = true) := by
  intro s op ok
  cases op <;> cases ok <;>
    simp [runOp, updateCardPositionRun, storeApplyBeforeGateway, isGatewayEvent]

/-- C1 counterexample: in a column holding cards A at 0, B at 1, C at 2,
dragging A onto C leaves positions 2, 1, 2 — not the set 0, 1, 2 and with a
duplicate — because only the moved card's position is written. -/
theorem C1_reorder_counterexample :
    columnPositions (handleDragEnd exState1 "A" (some "C") true).1 "col" = [2, 1, 2]
    ∧ ¬ (columnPositions (handleDragEnd exState1 "A" (some "C") true).1 "col").Nodup :=
  ⟨by decide, by decide⟩

/-- C1 amended: after a same-column reorder whose dragged id occurs exactly
once among the sorted siblings, the moved card's position becomes its new
index in the requested order (the index of the drop target in the current
ascending-position order) and its column is unchanged, while every other
card of the store is untouched; the column is not renumbered to 0..N-1. -/
theorem C1_reorder_updates_only_moved_card
    (s : BoardState) (activeId overId : String) (ac oc : Card) (ai oi : Nat)
    (hac : s.cards.find? (fun c => c.id == activeId) = some ac)
    (hnocol : s.columns.find? (fun col => col.id == overId) = none)
    (hoc : s.cards.find? (fun c => c.id == overId) = some oc)
    (hsame : ac.column_id = oc.column_id)
    (hai : findIndex (fun c => c.id == activeId)
        (sortByPos (s.cards.filter (fun c => c.column_id == ac.column_id))) = some ai)
    (hoi : findIndex (fun c => c.id == overId)
        (sortByPos (s.cards.filter (fun c => c.column_id == ac.column_id))) = some oi)
    (huniq : ∀ y ∈ removeAt ai (sortByPos (s.cards.filter (fun c => c.column_id == ac.column_id))),
        y.id ≠ activeId) :
    (handleDragEnd s activeId (some overId) true).1.cards
      = s.cards.map (fun c =>
          if c.id == activeId then { c with column_id := ac.column_id, position := Int.ofNat oi }
          else c) := by
  obtain ⟨x, hnth, hpx⟩ := findIndex_nth hai
  have hrest : ∀ y ∈ removeAt ai (sortByPos (s.cards.filter (fun c => c.column_id == ac.column_id))),
      (fun c => c.id == activeId) y = false := by
    intro y hy
    simpa using huniq y hy
  have hoilen := findIndex_lt_length hoi
  have hnewidx := arrayMove_findIndex hnth hpx hrest hoilen
  have hif : (ac.column_id == oc.column_id) = true := by simp [hsame]
  simp only [handleDragEnd, hac, hnocol, hoc]
  rw [if_pos hif]
  simp only [hai, hoi, hnewidx]
  simp [updateCardPositionRun]

/-- C1 amended, witness: the concrete reorder of A onto C in the three-card
column updates only card A, to position 2. -/
theorem C1_reorder_updates_only_moved_card_witness :
    (handleDragEnd exState1 "A" (some "C") true).1.cards
      = exState1.cards.map (fun c =>
          if c.id == "A" then { c with column_id := "col", position := Int.ofNat 2 }
          else c) :=
  C1_reorder_updates_only_moved_card exState1 "A" "C" exCardA exCardC 0 2
    (by decide) (by decide) (by decide) (by decide) (by decide) (by decide) (by decide)

/-- C2, evaluated at the failing input: with card A at position 0 of col1 and
card B at position 0 of col2, dragging A onto B gives col2 the positions
0, 0 — two cards of one column share a position, violating the claimed
invariant (the moved card takes the target's position with no renumbering). -/
theorem C2_cross_move_duplicate_positions :
    columnPositions (handleDragEnd exState2 "A" (some "B") true).1 "col2" = [0, 0]
    ∧ ¬ (columnPositions (handleDragEnd exState2 "A" (some "B") true).1 "col2").Nodup :=
  ⟨by decide, by decide⟩

theorem cardMovedOut_updateCardPositionRun (s : BoardState) (activeId source dest : String)
    (pos : Int) (hne : dest ≠ source) :
    cardMovedOut (updateCardPositionRun s activeId dest pos true).1 activeId source dest := by
  unfold cardMovedOut
  intro c hc
  simp only [updateCardPositionRun, if_pos rfl] at hc
  obtain ⟨c0, hc0, rfl⟩ := List.mem_map.1 hc
  by_cases hid : (c0.id == activeId) = true
  · rw [if_pos hid]
    exact ⟨fun _ => rfl, fun h => (hne h).elim⟩
  · rw [if_neg hid]
    have hne0 : c0.id ≠ activeId := by simpa using hid
    exact ⟨fun h => (hne0 h).elim, fun _ => hne0⟩

/-- C6: a cross-column move — a drop on a column other than the card's own,
or on a card of a different column — leaves every copy of the moved card in
the destination column and none in the source column. -/
theorem C6_cross_column_move
    (s : BoardState) (activeId overId dest : String) (ac : Card)
    (hac : s.cards.find? (fun c => c.id == activeId) = some ac)
    (hne : dest ≠ ac.column_id)
    (hdrop : (∃ oc, s.columns.find? (fun col => col.id == overId) = some oc ∧ dest = oc.id)
      ∨ (s.columns.find? (fun col => col.id == overId) = none
         ∧ ∃ oc, s.cards.find? (fun c => c.id == overId) = some oc
             ∧ ac.column_id ≠ oc.column_id ∧ dest = oc.column_id)) :
    cardMovedOut (handleDragEnd s activeId (some overId) true).1 activeId ac.column_id dest := by
  rcases hdrop with ⟨oc, hcol, hdest⟩ | ⟨hnocol, oc, hoc, hdiff, hdest⟩
  · simp only [handleDragEnd, hac, hcol]
    subst hdest
    exact cardMovedOut_updateCardPositionRun s activeId ac.column_id oc.id _ hne
  · have hbne : ¬ ((ac.column_id == oc.column_id) = true) := by simpa using hdiff
    simp only [handleDragEnd, hac, hnocol, hoc]
    rw [if_neg hbne]
    subst hdest
    exact cardMovedOut_updateCardPositionRun s activeId ac.column_id oc.column_id _ hne

/-- C6 witness: dragging card A (of col1) onto card B (of col2) moves A to
col2 and out of col1 in the concrete two-column store. -/
theorem C6_cross_column_move_witness :
    cardMovedOut (handleDragEnd exState2 "A" (some "B") true).1 "A" "col1" "col2" :=
  C6_cross_column_move exState2 "A" "B" "col2" exCardA2 (by decide) (by decide)
    (Or.inr ⟨by decide, exCardB2, by decide, by decide, by decide⟩)

/-- C7: deleting a column removes every card of that column from the visible
card collection, and deleting the currently selected board clears
currentBoard and empties the columns and cards of the snapshot. -/
theorem C7_delete_cascades (s s' : BoardState) (columnId boardId : String) (b : Board)
    (hcur : s'.currentBoard = some b) (hid : b.id = boardId) :
    cascadeColumnDeleted (runOp s (Op.deleteColumn columnId) true).1 columnId
    ∧ boardViewCleared (runOp s' (Op.deleteBoard boardId) true).1 := by
  constructor
  · unfold cascadeColumnDeleted
    intro c hc
    simp only [runOp, if_pos rfl] at hc
    have hmem := List.mem_filter.1 hc
    simpa using hmem.2
  · simp [runOp, hcur, hid, boardViewCleared]

/-- C7 witness: in the concrete store whose current board is Sprint 1,
deleting column col removes its cards, and deleting board b1 clears the
snapshot. -/
theorem C7_delete_cascades_witness :
    cascadeColumnDeleted (runOp exState4 (Op.deleteColumn "col") true).1 "col"
    ∧ boardViewCleared (runOp exState4 (Op.deleteBoard "b1") true).1 :=
  C7_delete_cascades exState4 exState4 "col" "b1" exBoard (by decide) (by decide)

/-- C5: a successful createCard/createColumn appends an entity whose position
is one past the greatest sibling position in scope, or 0 when the scope is
empty; and a sequence of successful creations into an empty scope assigns
the positions 0, 1, 2, ... in creation order. -/
theorem C5_create_position_allocation
    (s1 s2 s3 s4 s5 s6 : BoardState)
    (title columnId boardId rid ca ua : String)
    (m mc : Int)
    (l : List (String × String × String × String))
    (hm : listMax (columnPositions s1 columnId) = some m)
    (h2 : columnPositions s2 columnId = [])
    (hmc : listMax (boardPositions s3 boardId) = some mc)
    (h4 : boardPositions s4 boardId = [])
    (h5 : columnPositions s5 columnId = [])
    (h6 : boardPositions s6 boardId = []) :
    ((runOp s1 (Op.createCard title columnId rid ca ua) true).1.cards
        = s1.cards ++ [⟨rid, columnId, title, none, m + 1, ca, ua, []⟩]
      ∧ isMaxOf m (columnPositions s1 columnId))
    ∧ (runOp s2 (Op.createCard title columnId rid ca ua) true).1.cards
        = s2.cards ++ [⟨rid, columnId, title, none, 0, ca, ua, []⟩]
    ∧ ((runOp s3 (Op.createColumn title boardId rid ca ua) true).1.columns
        = s3.columns ++ [⟨rid, boardId, title, mc + 1, ca, ua⟩]
      ∧ isMaxOf mc (boardPositions s3 boardId))
    ∧ (runOp s4 (Op.createColumn title boardId rid ca ua) true).1.columns
        = s4.columns ++ [⟨rid, boardId, title, 0, ca, ua⟩]
    ∧ columnPositions (createCards s5 columnId l) columnId = rangeInts l.length
    ∧ boardPositions (createColumns s6 boardId l) boardId = rangeInts l.length := by
  refine ⟨⟨?_, listMax_mem hm, listMax_le hm⟩, ?_, ⟨?_, listMax_mem hmc, listMax_le hmc⟩,
    ?_, ?_, ?_⟩
  · simp [runOp, nextPosition_eq, hm]
  · simp [runOp, nextPosition_eq, h2, listMax]
  · simp [runOp, nextPosition_eq, hmc]
  · simp [runOp, nextPosition_eq, h4, listMax]
  · have h := columnPositions_createCards columnId l s5 0 (by rw [h5]; rfl)
    simpa using h
  · have h := boardPositions_createColumns boardId l s6 0 (by rw [h6]; rfl)
    simpa using h

/-- C5 witness: the concrete three-card column gives the next card position
3; empty scopes give 0; two creations into an empty column and an empty
board yield positions 0, 1. -/
theorem C5_create_position_allocation_witness :
    ((runOp exState1 (Op.createCard "T" "col" "r1" "c" "u") true).1.cards
        = exState1.cards ++ [⟨"r1", "col", "T", none, 2 + 1, "c", "u", []⟩]
      ∧ isMaxOf 2 (columnPositions exState1 "col"))
    ∧ (runOp exState0 (Op.createCard "T" "col" "r1" "c" "u") true).1.cards
        = exState0.cards ++ [⟨"r1", "col", "T", none, 0, "c", "u", []⟩]
    ∧ ((runOp exState2 (Op.createColumn "T" "b1" "r1" "c" "u") true).1.columns
        = exState2.columns ++ [⟨"r1", "b1", "T", 1 + 1, "c", "u"⟩]
      ∧ isMaxOf 1 (boardPositions exState2 "b1"))
    ∧ (runOp exState0 (Op.createColumn "T" "b1" "r1" "c" "u") true).1.columns
        = exState0.columns ++ [⟨"r1", "b1", "T", 0, "c", "u"⟩]
    ∧ columnPositions (createCards exState0 "col" [("a", "i1", "c", "u"), ("b", "i2", "c", "u")]) "col"
        = rangeInts 2
    ∧ boardPositions (createColumns exState0 "b1" [("a", "i1", "c", "u"), ("b", "i2", "c", "u")]) "b1"
        = rangeInts 2 :=
  C5_create_position_allocation exState1 exState0 exState2 exState0 exState0 exState0
    "T" "col" "b1" "r1" "c" "u" 2 1 [("a", "i1", "c", "u"), ("b", "i2", "c", "u")]
    (by decide) (by decide) (by decide) (by decide) (by decide) (by decide)

/-- C8 counterexample: createCard with an empty title and a parent column id
that exists nowhere still issues its Remote Gateway calls (the position query
and the insert), and on a successful remote outcome it mutates the Entity
Store — nothing is rejected locally before the gateway call. -/
theorem C8_validation_counterexample :
    (runOp exState0 (Op.createCard "" "nope" "c1" "ts" "ts") false).2
      = [Event.gateway (GatewayCall.selectMaxCardPos "nope"),
         Event.gateway (GatewayCall.insertCard "" "nope" 0)]
    ∧ (runOp exState0 (Op.createCard "" "nope" "c1" "ts" "ts") true).1 ≠ exState0 :=
  ⟨by decide, by decide⟩

/-- C8 amended: no local validation exists — for every input, including an
empty title or an unknown parent id, createCard issues its position query
first and then the insert call, and createBoard issues its insert call;
rejection can only come from the remote outcome. -/
theorem C8_no_local_validation :
    ∀ (s : BoardState) (title columnId rid ca ua : String) (ok : Bool) (ret : Board),
      (runOp s (Op.createCard title columnId rid ca ua) ok).2.head?
        = some (Event.gateway (GatewayCall.selectMaxCardPos columnId))
      ∧ Event.gateway (GatewayCall.insertCard title columnId
            (nextPosition (columnPositions s columnId)))
          ∈ (runOp s (Op.createCard title columnId rid ca ua) ok).2
      ∧ (runOp s (Op.createBoard title ret) ok).2.head?
        = some (Event.gateway (GatewayCall.insertBoard title)) := by
  intro s title columnId rid ca ua ok ret
  cases ok <;> simp [runOp]

/-- C9 counterexample: card X already carries tag t1; a successful
addTagToCard of t1 to X leaves X with two entries of tag id t1 — the
per-card distinct-tag-ids invariant fails after the operation. -/
theorem C9_duplicate_tag_counterexample :
    ¬ allCardTagsNodup (runOp exState3 (Op.addTagToCard "X" "t1") true).1 := by
  unfold allCardTagsNodup cardTagsNodup
  decide

/-- C9 amended: addTagToCard appends the looked-up tag unconditionally, so
when the card already carries the tag id and the remote insert succeeds the
card ends up with at least two entries of that tag id. -/
theorem C9_add_tag_appends_duplicate
    (s : BoardState) (cardId tagId : String) (c : Card) (t' : Tag)
    (hc : c ∈ s.cards) (hid : c.id = cardId)
    (hhas : 1 ≤ tagIdCount c tagId)
    (hfind : s.tags.find? (fun t => t.id == tagId) = some t') :
    hasDuplicateTag (runOp s (Op.addTagToCard cardId tagId) true).1 cardId tagId := by
  have hpt : (t'.id == tagId) = true := by
    have h := List.find?_some hfind
    simpa using h
  have hbeq : (c.id == cardId) = true := by simp [hid]
  have hcards : (runOp s (Op.addTagToCard cardId tagId) true).1.cards
      = s.cards.map (fun x =>
          if x.id == cardId then { x with tags := x.tags ++ [some t'] } else x) := by
    simp only [runOp, if_pos rfl]
    rw [hfind]
    simp
  unfold hasDuplicateTag
  refine ⟨{ c with tags := c.tags ++ [some t'] }, ?_, hid, ?_⟩
  · rw [hcards]
    have hmem := List.mem_map_of_mem
      (fun x => if x.id == cardId then { x with tags := x.tags ++ [some t'] } else x) hc
    simpa [hbeq] using hmem
  · have hfm : (({ c with tags := c.tags ++ [some t'] } : Card).tags.filterMap id)
        = c.tags.filterMap id ++ [t'] := by simp
    unfold tagIdCount
    rw [hfm, List.countP_append]
    have h1 : List.countP (fun t => t.id == tagId) [t'] = 1 := by
      simp [List.countP_cons, hpt]
    unfold tagIdCount at hhas
    omega

/-- C9 amended, witness: adding tag t1 to the concrete card X that already
carries it yields a duplicate entry. -/
theorem C9_add_tag_appends_duplicate_witness :
    hasDuplicateTag (runOp exState3 (Op.addTagToCard "X" "t1") true).1 "X" "t1" :=
  C9_add_tag_appends_duplicate exState3 "X" "t1" exCardX exTag1
    (by decide) (by decide) (by decide) (by decide)

/-- C10: when the tag id is absent from the global tag collection and the
remote insert succeeds, addTagToCard appends the unchecked lookup result —
an undefined entry — to the card's tag list. -/
theorem C10_missing_tag_appends_undefined
    (s : BoardState) (cardId tagId : String) (c : Card)
    (hc : c ∈ s.cards) (hid : c.id = cardId)
    (habs : ∀ t ∈ s.tags, t.id ≠ tagId) :
    hasUndefinedTagEntry (runOp s (Op.addTagToCard cardId tagId) true).1 cardId := by
  have hfind : s.tags.find? (fun t => t.id == tagId) = none :=
    List.find?_eq_none.2 (fun t ht => by simpa using habs t ht)
  have hbeq : (c.id == cardId) = true := by simp [hid]
  have hcards : (runOp s (Op.addTagToCard cardId tagId) true).1.cards
      = s.cards.map (fun x =>
          if x.id == cardId then { x with tags := x.tags ++ [none] } else x) := by
    simp only [runOp, if_pos rfl]
    rw [hfind]
    simp
  unfold hasUndefinedTagEntry
  refine ⟨{ c with tags := c.tags ++ [none] }, ?_, hid, ?_⟩
  · rw [hcards]
    have hmem := List.mem_map_of_mem
      (fun x => if x.id == cardId then { x with tags := x.tags ++ [none] } else x) hc
    simpa [hbeq] using hmem
  · simp

/-- C10 witness: adding the unknown tag id t9 to the concrete card Y (with an
empty global tag collection) appends an undefined entry to Y. -/
theorem C10_missing_tag_appends_undefined_witness :
    hasUndefinedTagEntry (runOp exState5 (Op.addTagToCard "Y" "t9") true).1 "Y" :=
  C10_missing_tag_appends_undefined exState5 "Y" "t9" exCardY
    (by decide) (by decide) (by decide)

end TaskBoard
